import Mathlib

/-!
Shallow embedding of the pyDAEDALUS orchestration layer
(`pyDAEDALUS/pydaedalus.py` and `pyDAEDALUS/exceptions.py`).

Python strings are modelled as Lean `String` (character lists where
convenient), the file system as a partial map from path strings to file
contents, and the three external engine calls (`ply_to_input`,
`DX_cage_design`, `pdbgen`) as oracles giving each call's outcome.
Exceptions are modelled with `Except` over a closed error type mirroring
the exception classes of `exceptions.py`.
-/

set_option linter.unusedVariables false

namespace PyDaedalus

/-- The file system: `none` means the path does not exist. -/
abbrev FS := String → Option String

def isWs (c : Char) : Bool := c.isWhitespace

/-- Python `str.strip()` on a character list. -/
def stripChars (l : List Char) : List Char :=
  ((l.dropWhile isWs).reverse.dropWhile isWs).reverse

/-- Splitting on newlines, modelling Python's line iteration (`for line in f`)
followed by per-line processing.  The result is always non-empty. -/
def splitOnNl : List Char → List (List Char)
  | [] => [[]]
  | c :: rest =>
    match splitOnNl rest with
    | [] => [[]]
    | h :: t => if c = '\n' then [] :: h :: t else (c :: h) :: t

def isPrefixChars : List Char → List Char → Bool
  | [], _ => true
  | _ :: _, [] => false
  | a :: as, b :: bs => a = b && isPrefixChars as bs

/-- Python `pat in s` substring test, on character lists. -/
def hasSubChars (pat : List Char) : List Char → Bool
  | [] => pat.isEmpty
  | c :: rest => isPrefixChars pat (c :: rest) || hasSubChars pat rest

/-- Python `pat in s` substring test, on strings. -/
def hasSub (pat s : String) : Bool := hasSubChars pat.data s.data

def pyUpper (s : String) : String := String.mk (s.data.map Char.toUpper)

def pyLower (s : String) : String := String.mk (s.data.map Char.toLower)

def pyStrip (s : String) : String := String.mk (stripChars s.data)

/-- The final path component (`pathlib.Path(...).name`), after dropping
trailing slashes. -/
def pathName (s : String) : List Char :=
  ((s.data.reverse.dropWhile (fun c => c = '/')).takeWhile (fun c => c ≠ '/')).reverse

/-- `pathlib.Path(...).suffix`: the extension of the final component; empty
unless the last dot of the name sits at an interior position (`0 < i <
len(name) - 1` in the CPython source). -/
def pathSuffix (s : String) : String :=
  let name := pathName s
  let extRev := name.reverse.takeWhile (fun c => c ≠ '.')
  if extRev.length ≠ 0 ∧ extRev.length + 1 < name.length then
    String.mk ('.' :: extRev.reverse)
  else ""

/-- The nucleotide alphabet `valid_bases = set('ATGCU')`. -/
def validBases : List Char := ['A', 'T', 'G', 'C', 'U']

/-- Python `sorted(set(sequence) - valid_bases)`: the distinct characters of
the (already uppercased) sequence outside the nucleotide alphabet, in
ascending order. -/
def invalidCharsSorted (sequence : String) : List Char :=
  List.insertionSort (fun a b => a ≤ b)
    (sequence.data.dedup.filter (fun c => !validBases.contains c))

/-- Python `', '.join(...)` over single characters. -/
def joinCommaSp (l : List Char) : String :=
  String.intercalate ", " (l.map (fun c => String.mk [c]))

/-- The closed error taxonomy of `exceptions.py`; each constructor carries the
arguments of the corresponding exception class constructor.  `pythonError`
models a foreign (non-PyDAEDALUS) exception escaping uncaught. -/
inductive PipeError where
  | pyDaedalus (message technical_details : String)
  | geometryFile (filename issue technical_details : String)
  | scaffoldSequence (issue sequence_info technical_details : String)
  | helicalParameter (helical_form : String) (helical_turns min_required : Int)
  | designConstraint (constraint geometry_info technical_details : String)
  | stapleGeneration (stage technical_details : String)
  | outputDirectory (directory issue : String)
  | pythonError (message : String)
  deriving DecidableEq

def PipeError.isScaffoldSequence : PipeError → Bool
  | .scaffoldSequence _ _ _ => true
  | _ => false

def PipeError.isHelicalParameter : PipeError → Bool
  | .helicalParameter _ _ _ => true
  | _ => false

def PipeError.isGeometryFile : PipeError → Bool
  | .geometryFile _ _ _ => true
  | _ => false

def PipeError.technicalDetails : PipeError → String
  | .pyDaedalus _ td => td
  | .geometryFile _ _ td => td
  | .scaffoldSequence _ _ td => td
  | .helicalParameter _ _ _ => ""
  | .designConstraint _ _ td => td
  | .stapleGeneration _ td => td
  | .outputDirectory _ _ => ""
  | .pythonError m => m

/-- `exceptions.validate_geometry_file` (the best-effort sibling-file scan in
the not-found technical detail is elided). -/
def validate_geometry_file (fs : FS) (geometry_file : String) : Except PipeError Unit :=
  match fs geometry_file with
  | none =>
    .error (.geometryFile geometry_file "File not found" ("File path: " ++ geometry_file))
  | some content =>
    if pyLower (pathSuffix geometry_file) ≠ ".ply" then
      .error (.geometryFile geometry_file
        ("Expected PLY file, got \x27" ++ pathSuffix geometry_file ++ "\x27 file")
        "File must have .ply extension and be in PLY format")
    else
      let head := String.mk (content.data.take 100)
      if pyStrip head = "" then
        .error (.geometryFile geometry_file "File is empty" "PLY file contains no data")
      else if !hasSub "ply" (pyLower head) then
        .error (.geometryFile geometry_file "File doesn\x27t appear to be in PLY format"
          ("Expected PLY header, found: " ++ String.mk (head.data.take 50) ++ "..."))
      else .ok ()

/-- The path-vs-inline-string sniffing condition of
`exceptions.validate_scaffold_sequence`: a slash, a backslash, or a
non-empty `Path(...).suffix`. -/
def looksLikeFilePath (s : String) : Bool :=
  s.data.contains '/' || s.data.contains '\\' || !(pathSuffix s == "")

/-- `exceptions.validate_scaffold_sequence`.  `none` models Python `None`;
the `PermissionError` wrapping is elided (the file-system model has no
permissions). -/
def validate_scaffold_sequence (fs : FS) (scaffold_sequence : Option String)
    (project_name : String) : Except PipeError Unit :=
  match scaffold_sequence with
  | none => .ok ()
  | some s =>
    if s = "M13.txt" then .ok ()
    else if looksLikeFilePath s then
      match fs s with
      | none =>
        .error (.scaffoldSequence "Scaffold sequence file not found" ("File: " ++ s)
          ("Attempted to read: " ++ s))
      | some contents =>
        let sequence := pyStrip contents
        if sequence = "" then
          .error (.scaffoldSequence "Scaffold sequence file is empty" ("File: " ++ s) "")
        else
          let invalid := invalidCharsSorted (pyUpper sequence)
          if invalid.isEmpty then .ok ()
          else
            .error (.scaffoldSequence "Invalid characters in scaffold sequence"
              ("Found: " ++ joinCommaSp invalid)
              ("Only A, T, G, C, U are allowed. Sequence length: " ++ toString sequence.length))
    else
      let sequence := pyUpper s
      let invalid := invalidCharsSorted sequence
      if invalid.isEmpty then .ok ()
      else
        .error (.scaffoldSequence "Invalid characters in scaffold sequence string"
          ("Found: " ++ joinCommaSp invalid)
          ("Only A, T, G, C, U are allowed. Sequence length: " ++ toString sequence.length))

/-- Mutable file-system state touched by `validate_output_directory`:
which directories and which files exist, as characteristic functions. -/
@[ext]
structure DirState where
  dirs : String → Bool
  files : String → Bool

/-- Environment oracles for directory creation and writability; creation of
missing parents (`parents=True`) is absorbed into the single `canCreate`
answer for the project directory. -/
structure DirEnv where
  canCreate : String → Bool
  diskFull : String → Bool
  canWrite : String → Bool

/-- `project_dir.mkdir(parents=True, exist_ok=True)` with its two `except`
branches: a pre-existing directory is accepted silently. -/
def mkdir_parents_exist_ok (env : DirEnv) (st : DirState) (project_dir : String) :
    Except PipeError DirState :=
  if st.dirs project_dir then .ok st
  else if !env.canCreate project_dir then
    .error (.outputDirectory project_dir "Permission denied - cannot create directory")
  else if env.diskFull project_dir then
    .error (.outputDirectory project_dir "No space left on device")
  else .ok { st with dirs := fun d => d == project_dir || st.dirs d }

/-- The write-permission probe: `touch` then `unlink` the `.write_test`
sentinel. -/
def write_probe (env : DirEnv) (st : DirState) (project_dir : String) :
    Except PipeError DirState :=
  let test_file := project_dir ++ "/.write_test"
  if env.canWrite project_dir then
    .ok { st with files := fun f => if f == test_file then false else st.files f }
  else .error (.outputDirectory project_dir "Directory exists but is not writable")

/-- `exceptions.validate_output_directory`: resolve the project directory
under the output directory (or the current working directory), create it,
then probe writability. -/
def validate_output_directory (env : DirEnv) (st : DirState) (output_dir : Option String)
    (cwd project_name : String) : Except PipeError (String × DirState) :=
  let project_dir := (output_dir.getD cwd) ++ "/" ++ project_name
  match mkdir_parents_exist_ok env st project_dir with
  | .error e => .error e
  | .ok st1 =>
    match write_probe env st1 project_dir with
    | .error e => .error e
    | .ok st2 => .ok (project_dir, st2)

/-- Engine-facing helical parameters (the dict built by
`_get_helical_config`). -/
structure HelicalConfig where
  min_edge_len : Int
  h_form : Bool
  twist : Nat
  deriving DecidableEq

/-- `pydaedalus._get_helical_config`; falls through to `none` (Python `None`)
for a form outside the four known ones.  `floor(helical_turns * 10.5)` is
modelled with exact rational arithmetic. -/
def get_helical_config (helical_form : String) (helical_turns : Int) : Option HelicalConfig :=
  if helical_form = "Aform" then
    some { min_edge_len := helical_turns * 11, h_form := true, twist := 1 }
  else if helical_form = "Bform" then
    some { min_edge_len := ⌊(helical_turns : ℚ) * (10.5 : ℚ)⌋, h_form := false, twist := 1 }
  else if helical_form = "Hybrid" then
    some { min_edge_len := helical_turns * 11, h_form := true, twist := 2 }
  else if helical_form = "Twisted" then
    some { min_edge_len := helical_turns * 11, h_form := true, twist := 3 }
  else none

/-- `valid_forms = {"Aform", "Bform", "Hybrid", "Twisted"}`. -/
def valid_forms : List String := ["Aform", "Bform", "Hybrid", "Twisted"]

/-- `min_turns = {"Aform": 4, "Bform": 3, "Hybrid": 4, "Twisted": 4}`; the
fall-through value is never consulted because the form is validated first. -/
def min_turns (helical_form : String) : Int :=
  if helical_form = "Aform" then 4
  else if helical_form = "Bform" then 3
  else if helical_form = "Hybrid" then 4
  else if helical_form = "Twisted" then 4
  else 0

/-- The `helical_form not in valid_forms` check of `design_structure`. -/
def check_helical_form (helical_form : String) : Except PipeError Unit :=
  if valid_forms.contains helical_form then .ok ()
  else
    .error (.pyDaedalus ("Invalid helical_form \x27" ++ helical_form ++ "\x27")
      "Valid options are: Aform, Bform, Hybrid, Twisted")

/-- The `helical_turns < min_turns[helical_form]` check of
`design_structure`. -/
def check_helical_turns (helical_form : String) (helical_turns : Int) : Except PipeError Unit :=
  if helical_turns < min_turns helical_form then
    .error (.helicalParameter helical_form helical_turns (min_turns helical_form))
  else .ok ()

/-- `pydaedalus._process_scaffold_sequence`.  Python returns `([], [])` in the
default cases; the empty string pair models that (both are falsy).  A file
read is `''.join(line.strip() for line in f).upper()`. -/
def process_scaffold_sequence (fs : FS) (scaffold_sequence : Option String)
    (project_name : String) : String × String :=
  match scaffold_sequence with
  | none => ("", "")
  | some s =>
    if s = "M13.txt" then ("", "")
    else
      match fs s with
      | some contents =>
        (pyUpper (String.mk (((splitOnNl contents.data).map stripChars).flatten)), project_name)
      | none => (pyUpper s, project_name)

/-- An exception arising inside the scaffold `try` block of
`design_structure` (lines 196-211): either the `ScaffoldSequenceError`
raised by the length check, or a foreign exception carrying its `str(e)`. -/
inductive TryExc where
  | scaffoldErr (issue sequence_info technical_details : String)
  | foreign (message : String)
  deriving DecidableEq

/-- The post-geometry scaffold length check (`design_structure` lines
202-211): a resolved non-empty sequence shorter than twice the total edge
length fails. -/
def check_scaffold_length (scaf_seq : String) (num_edges : Nat)
    (edge_length_vec : List Nat) : Except TryExc Unit :=
  let total_edge_length := edge_length_vec.sum
  let min_scaffold_length := 2 * total_edge_length
  if scaf_seq ≠ "" ∧ scaf_seq.length < min_scaffold_length then
    .error (.scaffoldErr "Scaffold sequence too short"
      ("Provided: " ++ toString scaf_seq.length ++ " nt, Required: ≥"
        ++ toString min_scaffold_length ++ " nt")
      ("Geometry requires ~" ++ toString min_scaffold_length ++ " nucleotides ("
        ++ toString num_edges ++ " edges, total length " ++ toString total_edge_length
        ++ ".0 bp). Rule of thumb: scaffold length ≥ 2 × total edge length."))
  else .ok ()

/-- The scaffold `try` block of `design_structure`: resolve the sequence,
then run the length check. -/
def scaffold_try_block (fs : FS) (scaffold_sequence : Option String) (project_name : String)
    (num_edges : Nat) (edge_length_vec : List Nat) : Except TryExc (String × String) :=
  let p := process_scaffold_sequence fs scaffold_sequence project_name
  match check_scaffold_length p.1 num_edges edge_length_vec with
  | .error e => .error e
  | .ok _ => .ok p

/-- The `except` clause of `design_structure` lines 212-219: a raised
`ScaffoldSequenceError` is re-raised unchanged; any other exception is
wrapped into a `ScaffoldSequenceError` with the fixed issue text and the raw
error text as technical detail. -/
def scaffold_except_clause {α : Type} (r : Except TryExc α) : Except PipeError α :=
  match r with
  | .ok v => .ok v
  | .error (.scaffoldErr i si td) => .error (.scaffoldSequence i si td)
  | .error (.foreign m) => .error (.scaffoldSequence "Error processing scaffold sequence" "" m)

/-- Scaffold resolution plus length check, with the surrounding
`try`/`except`. -/
def scaffold_stage (fs : FS) (scaffold_sequence : Option String) (project_name : String)
    (num_edges : Nat) (edge_length_vec : List Nat) : Except PipeError (String × String) :=
  scaffold_except_clause
    (scaffold_try_block fs scaffold_sequence project_name num_edges edge_length_vec)

/-- The parts of `ply_to_input`'s output the orchestration layer inspects. -/
structure PlyOut where
  edges : List (Nat × Nat)
  edge_length_vec : List Nat
  file_name : String
  staple_name : String
  deriving DecidableEq

/-- An exception raised by `ply_to_input`: an `AssertionError` or any other
exception, each carrying its `str(e)`. -/
inductive PlyExc where
  | assertionFail (message : String)
  | otherFail (message : String)
  deriving DecidableEq

/-- The `try`/`except` around the `ply_to_input` call (`design_structure`
lines 153-181). -/
def ply_stage (geometry_file : String) (r : Except PlyExc PlyOut) : Except PipeError PlyOut :=
  match r with
  | .ok out => .ok out
  | .error (.assertionFail m) =>
    .error (.geometryFile geometry_file "PLY file format validation failed"
      ("The PLY file appears to be corrupted or malformed: " ++ m))
  | .error (.otherFail m) =>
    if hasSub "map" m && hasSub "subscriptable" m then
      .error (.designConstraint "Geometry processing failed" ("File: " ++ geometry_file)
        "This error often occurs with Python 3 compatibility issues in PLY processing. The geometry may have edges that are too short or the PLY format may have issues.")
    else
      .error (.designConstraint "Geometry processing failed" ("File: " ++ geometry_file)
        ("Unexpected error during PLY processing: " ++ m))

/-- The keyword reclassification of a `DX_cage_design` failure
(`design_structure` lines 238-264). -/
def classify_cage_error (e : String) (scaf_seq : String) (num_edges : Nat)
    (helical_form project_name : String) (helical_turns : Int) : PipeError :=
  let error_str := pyLower e
  if hasSub "scaffold" error_str && (hasSub "short" error_str || hasSub "length" error_str) then
    .scaffoldSequence "Scaffold too short during design"
      ("Current scaffold: " ++ (if scaf_seq ≠ "" then toString scaf_seq.length else "default")
        ++ " nt")
      ("Design algorithm error: " ++ e)
  else if hasSub "staple" error_str then
    .stapleGeneration "Staple sequence assignment" ("Error during staple generation: " ++ e)
  else if hasSub "routing" error_str || hasSub "path" error_str then
    .designConstraint "Scaffold routing failed"
      ("Edges: " ++ toString num_edges ++ ", Form: " ++ helical_form)
      ("Cannot find valid scaffold path through geometry: " ++ e)
  else
    .designConstraint "Design algorithm failed"
      ("Project: " ++ project_name ++ ", Form: " ++ helical_form ++ ", Turns: "
        ++ toString helical_turns)
      ("Unexpected error in DX_cage_design: " ++ e)

/-- The `try`/`except` around the `DX_cage_design` call. -/
def cage_stage (r : Except String String) (scaf_seq : String) (num_edges : Nat)
    (helical_form project_name : String) (helical_turns : Int) : Except PipeError String :=
  match r with
  | .ok full_file_name => .ok full_file_name
  | .error e =>
    .error (classify_cage_error e scaf_seq num_edges helical_form project_name helical_turns)

/-- `pydaedalus.DesignResult`. -/
structure DesignResult where
  project_name : String
  output_dir : String
  full_file_name : String
  deriving DecidableEq

def DesignResult.csv_file (r : DesignResult) : String :=
  r.output_dir ++ "/" ++ ("staples_" ++ r.full_file_name ++ ".csv")

def DesignResult.cndo_file (r : DesignResult) : String :=
  r.output_dir ++ "/" ++ (r.full_file_name ++ ".cndo")

def DesignResult.pdb_file (r : DesignResult) : String :=
  r.output_dir ++ "/" ++ (r.full_file_name ++ ".pdb")

def DesignResult.plot_file (r : DesignResult) : String :=
  r.output_dir ++ "/" ++ (r.full_file_name ++ ".png")

/-- The spec's §4.5 `package` operation: the `DesignResult` constructor. -/
def package (project_name output_dir full_file_name : String) : DesignResult :=
  ⟨project_name, output_dir, full_file_name⟩

/-- Outcomes of the three external engine calls. -/
structure EngineOracle where
  plyResult : Except PlyExc PlyOut
  cageResult : Except String String
  pdbResult : Except String Unit

/-- Reading `_get_helical_config`'s result in `design_structure`; the `none`
branch models the `TypeError` Python would raise on subscripting `None`
(unreachable, because the form is validated first). -/
def getHelicalConfigE (helical_form : String) (helical_turns : Int) :
    Except PipeError HelicalConfig :=
  match get_helical_config helical_form helical_turns with
  | some c => .ok c
  | none => .error (.pythonError "TypeError: NoneType object is not subscriptable")

/-- `design_structure` up to and including the `DX_cage_design` call, in the
source's stage order: geometry validation, form check, turns check, scaffold
validation, output directory, helical config, `ply_to_input`, the
no-edges check, scaffold resolution and length check, `DX_cage_design`. -/
def design_core (fs : FS) (env : DirEnv) (st : DirState) (cwd : String)
    (plyResult : Except PlyExc PlyOut) (cageResult : Except String String)
    (project_name geometry_file helical_form : String) (helical_turns : Int)
    (scaffold_sequence : Option String) (output_dir : Option String) :
    Except PipeError DesignResult :=
  match validate_geometry_file fs geometry_file with
  | .error e => .error e
  | .ok _ =>
  match check_helical_form helical_form with
  | .error e => .error e
  | .ok _ =>
  match check_helical_turns helical_form helical_turns with
  | .error e => .error e
  | .ok _ =>
  match validate_scaffold_sequence fs scaffold_sequence project_name with
  | .error e => .error e
  | .ok _ =>
  match validate_output_directory env st output_dir cwd project_name with
  | .error e => .error e
  | .ok pd =>
  match getHelicalConfigE helical_form helical_turns with
  | .error e => .error e
  | .ok _config =>
  match ply_stage geometry_file plyResult with
  | .error e => .error e
  | .ok ply =>
  if ply.edges.length = 0 then
    .error (.designConstraint "No edges found in geometry" ("File: " ++ geometry_file)
      "The PLY file must define a 3D polyhedron with edges")
  else
  match scaffold_stage fs scaffold_sequence project_name ply.edges.length ply.edge_length_vec with
  | .error e => .error e
  | .ok sc =>
  match cage_stage cageResult sc.1 ply.edges.length helical_form project_name helical_turns with
  | .error e => .error e
  | .ok full_file_name => .ok (package project_name pd.1 full_file_name)

/-- The warnings printed when `pdbgen` fails (`design_structure` lines
266-274); nothing is printed when `print_output` is false. -/
def pdb_warnings (pdbResult : Except String Unit) (print_output : Bool) : List String :=
  match pdbResult with
  | .ok _ => []
  | .error e =>
    if print_output then
      ["Warning: PDB file generation failed: " ++ e,
        "Other output files (CSV, CanDo) were generated successfully."]
    else []

/-- `pydaedalus.design_structure`: the full pipeline; on success it returns
the `DesignResult` together with the warnings printed by the non-fatal
`pdbgen` stage. -/
def design_structure (fs : FS) (env : DirEnv) (st : DirState) (cwd : String)
    (oracle : EngineOracle)
    (project_name geometry_file helical_form : String) (helical_turns : Int)
    (scaffold_sequence : Option String) (output_dir : Option String)
    (single_crossovers print_output : Bool) :
    Except PipeError (DesignResult × List String) :=
  match design_core fs env st cwd oracle.plyResult oracle.cageResult project_name geometry_file
      helical_form helical_turns scaffold_sequence output_dir with
  | .error e => .error e
  | .ok res => .ok (res, pdb_warnings oracle.pdbResult print_output)

/-- The helical-configuration table exactly as the spec's §4.2 states it,
written independently of the code (the spec's `BForm`, `AForm` name the
code's `Bform`, `Aform` selectors). -/
def spec_helical_table (form : String) (turns : Int) : Option HelicalConfig :=
  if form = "Bform" then some ⟨⌊(turns : ℚ) * (10.5 : ℚ)⌋, false, 1⟩
  else if form = "Aform" then some ⟨turns * 11, true, 1⟩
  else if form = "Hybrid" then some ⟨turns * 11, true, 2⟩
  else if form = "Twisted" then some ⟨turns * 11, true, 3⟩
  else none

/-- The four classification outcomes of the spec's §4.4 rules. -/
inductive ErrKind where
  | scaffoldK | stapleK | routingK | genericK
  deriving DecidableEq

/-- The engine-failure classification rule exactly as the spec's §4.4 states
it: keyword inspection of the lower-cased raw error text. -/
def spec_classify_kind (e : String) : ErrKind :=
  let s := pyLower e
  if hasSub "scaffold" s && (hasSub "short" s || hasSub "length" s) then .scaffoldK
  else if hasSub "staple" s then .stapleK
  else if hasSub "routing" s || hasSub "path" s then .routingK
  else .genericK

/-- Which taxonomy kind a translated engine error belongs to; the routing and
generic `DesignConstraintError` cases are told apart by their constraint
message. -/
def errKindOf : PipeError → ErrKind
  | .scaffoldSequence _ _ _ => .scaffoldK
  | .stapleGeneration _ _ => .stapleK
  | .designConstraint c _ _ => if c = "Scaffold routing failed" then .routingK else .genericK
  | _ => .genericK

/-! ### List-level helper lemmas about stripping and line splitting -/

theorem mem_of_mem_dropWhile {p : Char → Bool} {l : List Char} {a : Char}
    (h : a ∈ l.dropWhile p) : a ∈ l := by
  induction l with
  | nil => simp at h
  | cons b bs ih =>
    rw [List.dropWhile_cons] at h
    by_cases hb : p b = true
    · rw [if_pos hb] at h
      exact List.mem_cons_of_mem _ (ih h)
    · rw [if_neg hb] at h
      exact h

theorem mem_dropWhile_append_left {p : Char → Bool} {l : List Char} {a : Char}
    (xs : List Char) (h : a ∈ l.dropWhile p) : a ∈ (xs ++ l).dropWhile p := by
  induction xs with
  | nil => simpa using h
  | cons x xs ih =>
    rw [List.cons_append, List.dropWhile_cons]
    by_cases hx : p x = true
    · rw [if_pos hx]
      exact ih
    · rw [if_neg hx]
      exact List.mem_cons_of_mem _ (List.mem_append_right _ (mem_of_mem_dropWhile h))

theorem mem_dropWhile_append_right {p : Char → Bool} {l : List Char} {a : Char}
    (ys : List Char) (h : a ∈ l.dropWhile p) : a ∈ (l ++ ys).dropWhile p := by
  induction l with
  | nil => simp at h
  | cons b bs ih =>
    rw [List.cons_append, List.dropWhile_cons]
    rw [List.dropWhile_cons] at h
    by_cases hb : p b = true
    · rw [if_pos hb] at h ⊢
      exact ih h
    · rw [if_neg hb] at h ⊢
      rcases List.mem_cons.mp h with h | h
      · exact List.mem_cons.mpr (Or.inl h)
      · exact List.mem_cons_of_mem _ (List.mem_append_left _ h)

theorem dropWhile_append_of_ne_nil {p : Char → Bool} {l : List Char}
    (hl : l.dropWhile p ≠ []) (ys : List Char) :
    (l ++ ys).dropWhile p = l.dropWhile p ++ ys := by
  induction l with
  | nil => simp at hl
  | cons b bs ih =>
    rw [List.cons_append]
    simp only [List.dropWhile_cons]
    rw [List.dropWhile_cons] at hl
    by_cases hb : p b = true
    · rw [if_pos hb] at hl
      rw [if_pos hb, if_pos hb]
      exact ih hl
    · rw [if_neg hb, if_neg hb]
      simp

theorem dropWhile_append_of_eq_nil {p : Char → Bool} {l : List Char}
    (hl : l.dropWhile p = []) (ys : List Char) :
    (l ++ ys).dropWhile p = ys.dropWhile p := by
  induction l with
  | nil => simp
  | cons b bs ih =>
    rw [List.cons_append, List.dropWhile_cons]
    rw [List.dropWhile_cons] at hl
    by_cases hb : p b = true
    · rw [if_pos hb] at hl ⊢
      exact ih hl
    · rw [if_neg hb] at hl
      exact absurd hl (by simp)

/-- Every character of the strip of a middle piece is a character of the
strip of the whole list. -/
theorem mem_strip_of_mem_strip_middle {c : Char} {l p q : List Char}
    (h : c ∈ stripChars l) : c ∈ stripChars (p ++ l ++ q) := by
  unfold stripChars at h ⊢
  rw [List.mem_reverse] at h ⊢
  by_cases hl : l.dropWhile isWs = []
  · rw [hl] at h
    simp at h
  have key : ∃ X : List Char,
      (p ++ l ++ q).dropWhile isWs = X ++ (l.dropWhile isWs ++ q) := by
    by_cases hp : p.dropWhile isWs = []
    · refine ⟨[], ?_⟩
      rw [List.append_assoc, dropWhile_append_of_eq_nil hp,
        dropWhile_append_of_ne_nil hl]
      simp
    · refine ⟨p.dropWhile isWs ++ l.takeWhile isWs, ?_⟩
      rw [List.append_assoc, dropWhile_append_of_ne_nil hp, List.append_assoc]
      congr 1
      rw [← List.append_assoc, List.takeWhile_append_dropWhile]
  rcases key with ⟨X, hX⟩
  rw [hX, List.reverse_append, List.reverse_append]
  apply mem_dropWhile_append_right
  apply mem_dropWhile_append_left
  exact h

theorem splitOnNl_ne_nil (l : List Char) : splitOnNl l ≠ [] := by
  cases l with
  | nil => simp [splitOnNl]
  | cons c rest =>
    rw [splitOnNl]
    cases h : splitOnNl rest with
    | nil => simp
    | cons a t =>
      by_cases hc : c = '\n' <;> simp [hc]

theorem splitOnNl_head_prefix (l : List Char) :
    ∀ h t, splitOnNl l = h :: t → ∃ r, l = h ++ r := by
  induction l with
  | nil =>
    intro h t hht
    simp [splitOnNl] at hht
    exact ⟨[], by simp [hht.1]⟩
  | cons c rest ih =>
    intro h t hht
    rw [splitOnNl] at hht
    cases hsp : splitOnNl rest with
    | nil => exact absurd hsp (splitOnNl_ne_nil rest)
    | cons h' t' =>
      rw [hsp] at hht
      by_cases hc : c = '\n'
      · simp [hc] at hht
        exact ⟨c :: rest, by simp [← hht.1]⟩
      · simp [hc] at hht
        rcases ih h' t' hsp with ⟨r, hr⟩
        refine ⟨r, ?_⟩
        rw [← hht.1, List.cons_append, ← hr]

/-- A line produced by `splitOnNl` is a contiguous piece of the input. -/
theorem splitOnNl_mem_decomp {l ℓ : List Char} (h : ℓ ∈ splitOnNl l) :
    ∃ p q, l = p ++ ℓ ++ q := by
  induction l with
  | nil =>
    simp [splitOnNl] at h
    exact ⟨[], [], by simp [h]⟩
  | cons c rest ih =>
    rw [splitOnNl] at h
    cases hsp : splitOnNl rest with
    | nil => exact absurd hsp (splitOnNl_ne_nil rest)
    | cons h' t' =>
      rw [hsp] at h
      by_cases hc : c = '\n'
      · simp [hc] at h
        rcases h with h | h | h
        · exact ⟨[], c :: rest, by simp [h]⟩
        · have hm : ℓ ∈ splitOnNl rest := by rw [hsp, h]; exact List.mem_cons_self _ _
          rcases ih hm with ⟨p, q, hpq⟩
          exact ⟨c :: p, q, by simp [hpq]⟩
        · have hm : ℓ ∈ splitOnNl rest := by rw [hsp]; exact List.mem_cons_of_mem _ h
          rcases ih hm with ⟨p, q, hpq⟩
          exact ⟨c :: p, q, by simp [hpq]⟩
      · simp [hc] at h
        rcases h with h | h
        · rcases splitOnNl_head_prefix rest h' t' hsp with ⟨r, hr⟩
          exact ⟨[], r, by simp [h, hr]⟩
        · have hm : ℓ ∈ splitOnNl rest := by rw [hsp]; exact List.mem_cons_of_mem _ h
          rcases ih hm with ⟨p, q, hpq⟩
          exact ⟨c :: p, q, by simp [hpq]⟩

/-- Every character surviving a per-line strip also survives the whole-text
strip. -/
theorem mem_strip_line {c : Char} {contents ℓ : List Char}
    (hline : ℓ ∈ splitOnNl contents) (hc : c ∈ stripChars ℓ) :
    c ∈ stripChars contents := by
  rcases splitOnNl_mem_decomp hline with ⟨p, q, hpq⟩
  rw [hpq]
  exact mem_strip_of_mem_strip_middle hc

/-! ### C1: helical configuration table -/

/-- C1: for every helical form in the valid set and every turn count at or
above that form's minimum, `_get_helical_config` returns exactly the spec's
table row (BForm: floor(turns × 10.5), A-form false, twist 1; AForm:
turns × 11, true, 1; Hybrid: turns × 11, true, 2; Twisted: turns × 11,
true, 3); in particular (Bform, 4) yields (42, false, 1) and (Hybrid, 4)
yields (44, true, 2). -/
theorem helical_config_matches_spec_table (form : String) (turns : Int)
    (hform : form ∈ valid_forms) (hmin : min_turns form ≤ turns) :
    get_helical_config form turns = spec_helical_table form turns ∧
    get_helical_config "Bform" 4 = some ⟨42, false, 1⟩ ∧
    get_helical_config "Hybrid" 4 = some ⟨44, true, 2⟩ := by
  refine ⟨?_, ?_, ?_⟩
  · simp only [valid_forms, List.mem_cons, List.not_mem_nil, or_false] at hform
    rcases hform with h | h | h | h <;> subst h <;>
      simp [get_helical_config, spec_helical_table]
  · have h42 : (⌊(4 : ℚ) * (10.5 : ℚ)⌋ : Int) = 42 := by norm_num
    simp [get_helical_config, h42]
  · simp [get_helical_config]

/-- Witness for C1 at (Bform, 4). -/
theorem helical_config_matches_spec_table_witness :
    get_helical_config "Bform" 4 = spec_helical_table "Bform" 4 ∧
    get_helical_config "Bform" 4 = some ⟨42, false, 1⟩ ∧
    get_helical_config "Hybrid" 4 = some ⟨44, true, 2⟩ :=
  helical_config_matches_spec_table "Bform" 4 (by decide) (by decide)

/-! ### C3: post-geometry scaffold length check -/

/-- C3: when a concrete non-empty sequence of length L was resolved and
L < 2·E (E the total edge length), the length check fails with a
`ScaffoldSequenceError` reporting the provided length, the required length
2·E, the edge count and the total edge length; when L ≥ 2·E or the sequence
is empty, the length check does not raise. -/
theorem scaffold_length_check_spec (scaf_seq : String) (num_edges : Nat)
    (edge_length_vec : List Nat) :
    (scaf_seq ≠ "" → scaf_seq.length < 2 * edge_length_vec.sum →
      check_scaffold_length scaf_seq num_edges edge_length_vec =
        .error (.scaffoldErr "Scaffold sequence too short"
          ("Provided: " ++ toString scaf_seq.length ++ " nt, Required: ≥"
            ++ toString (2 * edge_length_vec.sum) ++ " nt")
          ("Geometry requires ~" ++ toString (2 * edge_length_vec.sum) ++ " nucleotides ("
            ++ toString num_edges ++ " edges, total length " ++ toString edge_length_vec.sum
            ++ ".0 bp). Rule of thumb: scaffold length ≥ 2 × total edge length."))) ∧
    (scaf_seq ≠ "" → scaf_seq.length < 2 * edge_length_vec.sum →
      ∃ si td, scaffold_except_clause (check_scaffold_length scaf_seq num_edges edge_length_vec) =
        .error (.scaffoldSequence "Scaffold sequence too short" si td)) ∧
    (2 * edge_length_vec.sum ≤ scaf_seq.length ∨ scaf_seq = "" →
      check_scaffold_length scaf_seq num_edges edge_length_vec = .ok ()) := by
  refine ⟨?_, ?_, ?_⟩
  · intro hne hlt
    unfold check_scaffold_length
    rw [if_pos ⟨hne, hlt⟩]
  · intro hne hlt
    unfold check_scaffold_length
    rw [if_pos ⟨hne, hlt⟩]
    exact ⟨_, _, rfl⟩
  · intro h
    unfold check_scaffold_length
    rw [if_neg]
    rintro ⟨hne, hlt⟩
    rcases h with h | h
    · exact absurd hlt (not_lt.mpr h)
    · exact hne h

/-- Witness for C3: length 2 against total edge length 3 fails reporting 2
and 6; length 8 against the same geometry passes. -/
theorem scaffold_length_check_spec_witness :
    check_scaffold_length "AT" 1 [3] =
      .error (.scaffoldErr "Scaffold sequence too short"
        "Provided: 2 nt, Required: ≥6 nt"
        "Geometry requires ~6 nucleotides (1 edges, total length 3.0 bp). Rule of thumb: scaffold length ≥ 2 × total edge length.") ∧
    check_scaffold_length "ATATATAT" 1 [3] = .ok () :=
  ⟨(scaffold_length_check_spec "AT" 1 [3]).1 (by decide) (by decide),
    (scaffold_length_check_spec "ATATATAT" 1 [3]).2.2 (Or.inl (by decide))⟩

/-! ### C5: keyword classification of cage-design failures -/

/-- C5: a cage-design failure is re-raised as exactly one typed error chosen
by keyword inspection of the lower-cased raw text, following the spec's
rules ("scaffold" with "short"/"length" → ScaffoldSequenceError; else
"staple" → StapleGenerationError; else "routing"/"path" →
DesignConstraintError with the routing message; else a generic
DesignConstraintError), and the raw error text is preserved inside the
technical-detail field. -/
theorem cage_error_classification (e scaf_seq : String) (num_edges : Nat)
    (helical_form project_name : String) (helical_turns : Int) :
    errKindOf (classify_cage_error e scaf_seq num_edges helical_form project_name helical_turns)
      = spec_classify_kind e ∧
    ∃ pre post,
      (classify_cage_error e scaf_seq num_edges helical_form project_name
          helical_turns).technicalDetails = pre ++ e ++ post := by
  unfold classify_cage_error spec_classify_kind
  by_cases h1 : (hasSub "scaffold" (pyLower e)
      && (hasSub "short" (pyLower e) || hasSub "length" (pyLower e))) = true
  · refine ⟨by simp [h1, errKindOf], ⟨"Design algorithm error: ", "", by simp [h1, PipeError.technicalDetails]⟩⟩
  · by_cases h2 : hasSub "staple" (pyLower e) = true
    · refine ⟨by simp [h1, h2, errKindOf], ⟨"Error during staple generation: ", "", by simp [h1, h2, PipeError.technicalDetails]⟩⟩
    · by_cases h3 : (hasSub "routing" (pyLower e) || hasSub "path" (pyLower e)) = true
      · refine ⟨by simp [h1, h2, h3, errKindOf], ⟨"Cannot find valid scaffold path through geometry: ", "", by simp [h1, h2, h3, PipeError.technicalDetails]⟩⟩
      · refine ⟨by simp [h1, h2, h3, errKindOf], ⟨"Unexpected error in DX_cage_design: ", "", by simp [h1, h2, h3, PipeError.technicalDetails]⟩⟩

/-! ### C9: result packaging -/

/-- C9: packaging is a pure constructor; the four artifact paths are computed
properties following the templates staples_<stem>.csv, <stem>.cndo,
<stem>.pdb, <stem>.png rooted at the output directory, and
package("p", "/out", "mystem").csv_file = "/out/staples_mystem.csv". -/
theorem design_result_path_templates (p out stem : String) :
    (package p out stem).csv_file = out ++ "/staples_" ++ stem ++ ".csv" ∧
    (package p out stem).cndo_file = out ++ "/" ++ stem ++ ".cndo" ∧
    (package p out stem).pdb_file = out ++ "/" ++ stem ++ ".pdb" ∧
    (package p out stem).plot_file = out ++ "/" ++ stem ++ ".png" ∧
    (package "p" "/out" "mystem").csv_file = "/out/staples_mystem.csv" := by
  refine ⟨?_, ?_, ?_, ?_, rfl⟩
  · simp only [package, DesignResult.csv_file, String.append_assoc]
    rw [← String.append_assoc "/" "staples_" (stem ++ ".csv")]
    rfl
  · simp [package, DesignResult.cndo_file, String.append_assoc]
  · simp [package, DesignResult.pdb_file, String.append_assoc]
  · simp [package, DesignResult.plot_file, String.append_assoc]

/-! ### C10: the scaffold-stage except clause -/

/-- C10: inside the scaffold resolution / length-check region, a raised
`ScaffoldSequenceError` propagates unchanged, any other exception is
re-raised as a `ScaffoldSequenceError` with issue "Error processing scaffold
sequence" and the original error text as technical detail, and consequently
the stage can surface no other error type. -/
theorem scaffold_except_clause_spec (r : Except TryExc (String × String)) :
    (∀ m, r = .error (.foreign m) →
      scaffold_except_clause r =
        .error (.scaffoldSequence "Error processing scaffold sequence" "" m)) ∧
    (∀ i si td, r = .error (.scaffoldErr i si td) →
      scaffold_except_clause r = .error (.scaffoldSequence i si td)) ∧
    (∀ v, r = .ok v → scaffold_except_clause r = .ok v) ∧
    (∀ e, scaffold_except_clause r = .error e → e.isScaffoldSequence = true) := by
  refine ⟨?_, ?_, ?_, ?_⟩
  · rintro m rfl
    rfl
  · rintro i si td rfl
    rfl
  · rintro v rfl
    rfl
  · intro e he
    cases r with
    | ok v => cases he
    | error exc =>
      cases exc with
      | scaffoldErr i si td => cases he; rfl
      | foreign m => cases he; rfl

/-- Witness for C10 at a concrete foreign failure and a concrete
`ScaffoldSequenceError`. -/
theorem scaffold_except_clause_spec_witness :
    scaffold_except_clause ((.error (.foreign "boom")) : Except TryExc (String × String)) =
      .error (.scaffoldSequence "Error processing scaffold sequence" "" "boom") ∧
    scaffold_except_clause ((.error (.scaffoldErr "i" "s" "t")) : Except TryExc (String × String)) =
      .error (.scaffoldSequence "i" "s" "t") :=
  ⟨(scaffold_except_clause_spec (.error (.foreign "boom"))).1 "boom" rfl,
    (scaffold_except_clause_spec (.error (.scaffoldErr "i" "s" "t"))).2.1 "i" "s" "t" rfl⟩

/-! ### C8: output directory validation is idempotent -/

theorem mkdir_ok_dirs {env : DirEnv} {st : DirState} {project_dir : String} {st1 : DirState}
    (h : mkdir_parents_exist_ok env st project_dir = .ok st1) :
    st1.dirs project_dir = true := by
  unfold mkdir_parents_exist_ok at h
  by_cases h1 : st.dirs project_dir = true
  · rw [if_pos h1] at h
    cases h
    exact h1
  · rw [if_neg h1] at h
    by_cases h2 : (!env.canCreate project_dir) = true
    · rw [if_pos h2] at h
      cases h
    · rw [if_neg h2] at h
      by_cases h3 : env.diskFull project_dir = true
      · rw [if_pos h3] at h
        cases h
      · rw [if_neg h3] at h
        cases h
        simp

theorem write_probe_ok {env : DirEnv} {st : DirState} {project_dir : String} {st2 : DirState}
    (h : write_probe env st project_dir = .ok st2) :
    env.canWrite project_dir = true ∧
      st2 = { st with
        files := fun f => if f == project_dir ++ "/.write_test" then false else st.files f } := by
  unfold write_probe at h
  by_cases hw : env.canWrite project_dir = true
  · rw [if_pos hw] at h
    cases h
    exact ⟨hw, rfl⟩
  · rw [if_neg hw] at h
    cases h

/-- C8: output directory validation is idempotent: if one run succeeds,
running it again on the resulting state succeeds with the same project
directory and leaves the state (directories and files) unaltered. -/
theorem output_directory_idempotent (env : DirEnv) (st : DirState)
    (output_dir : Option String) (cwd project_name pd : String) (st1 : DirState)
    (h : validate_output_directory env st output_dir cwd project_name = .ok (pd, st1)) :
    validate_output_directory env st1 output_dir cwd project_name = .ok (pd, st1) := by
  unfold validate_output_directory at h ⊢
  dsimp only at h ⊢
  set P := (output_dir.getD cwd) ++ "/" ++ project_name with hPdef
  cases hmk : mkdir_parents_exist_ok env st P with
  | error e =>
    rw [hmk] at h
    cases h
  | ok stA =>
    rw [hmk] at h
    dsimp only at h
    cases hpr : write_probe env stA P with
    | error e =>
      rw [hpr] at h
      cases h
    | ok stB =>
      rw [hpr] at h
      dsimp only at h
      rw [Except.ok.injEq, Prod.mk.injEq] at h
      obtain ⟨hpd, hst⟩ := h
      subst hpd
      subst hst
      have hdirsA : stA.dirs P = true := mkdir_ok_dirs hmk
      obtain ⟨hw, hstB⟩ := write_probe_ok hpr
      have hdirsB : stB.dirs P = true := by
        rw [hstB]
        exact hdirsA
      have hfilesB : stB.files (P ++ "/.write_test") = false := by
        rw [hstB]
        simp
      have hmk2 : mkdir_parents_exist_ok env stB P = .ok stB := by
        unfold mkdir_parents_exist_ok
        rw [if_pos hdirsB]
      have hpr2 : write_probe env stB P = .ok stB := by
        unfold write_probe
        rw [if_pos hw]
        congr 1
        refine DirState.ext rfl ?_
        funext f
        dsimp only
        by_cases hf : (f == P ++ "/.write_test") = true
        · rw [if_pos hf]
          rw [eq_of_beq hf]
          exact hfilesB.symm
        · rw [if_neg hf]
      rw [hmk2]
      dsimp only
      rw [hpr2]

def env0 : DirEnv := ⟨fun _ => true, fun _ => false, fun _ => true⟩

def st0 : DirState := ⟨fun _ => false, fun _ => false⟩

/-- Witness for C8 at a concrete environment and an initially empty state. -/
theorem output_directory_idempotent_witness :
    ∃ st1, validate_output_directory env0 st0 (some "/out") "." "p" = .ok ("/out/p", st1) ∧
      validate_output_directory env0 st1 (some "/out") "." "p" = .ok ("/out/p", st1) :=
  ⟨_, rfl, output_directory_idempotent env0 st0 (some "/out") "." "p" "/out/p" _ rfl⟩

/-! ### Stage error-shape lemmas -/

theorem isScaffoldSequence_not_helical {e : PipeError}
    (h : e.isScaffoldSequence = true) : e.isHelicalParameter = false := by
  cases e <;> simp_all [PipeError.isScaffoldSequence, PipeError.isHelicalParameter]

theorem validate_geometry_file_err_not_helical {fs : FS} {g : String} {e : PipeError}
    (h : validate_geometry_file fs g = .error e) : e.isHelicalParameter = false := by
  unfold validate_geometry_file at h
  repeat' (first | split at h | dsimp only at h)
  all_goals first | exact Except.noConfusion h | (cases h; rfl)

theorem check_helical_form_err_not_helical {form : String} {e : PipeError}
    (h : check_helical_form form = .error e) : e.isHelicalParameter = false := by
  unfold check_helical_form at h
  split at h
  · exact Except.noConfusion h
  · cases h; rfl

theorem validate_scaffold_sequence_err_scaffold {fs : FS} {input : Option String}
    {pn : String} {e : PipeError}
    (h : validate_scaffold_sequence fs input pn = .error e) : e.isScaffoldSequence = true := by
  unfold validate_scaffold_sequence at h
  repeat' (first | split at h | dsimp only at h)
  all_goals first | exact Except.noConfusion h | (cases h; rfl)

theorem mkdir_err_not_helical {env : DirEnv} {st : DirState} {pd : String} {e : PipeError}
    (h : mkdir_parents_exist_ok env st pd = .error e) : e.isHelicalParameter = false := by
  unfold mkdir_parents_exist_ok at h
  repeat' (first | split at h | dsimp only at h)
  all_goals first | exact Except.noConfusion h | (cases h; rfl)

theorem write_probe_err_not_helical {env : DirEnv} {st : DirState} {pd : String} {e : PipeError}
    (h : write_probe env st pd = .error e) : e.isHelicalParameter = false := by
  unfold write_probe at h
  repeat' (first | split at h | dsimp only at h)
  all_goals first | exact Except.noConfusion h | (cases h; rfl)

theorem validate_output_directory_err_not_helical {env : DirEnv} {st : DirState}
    {od : Option String} {cwd pn : String} {e : PipeError}
    (h : validate_output_directory env st od cwd pn = .error e) :
    e.isHelicalParameter = false := by
  unfold validate_output_directory at h
  dsimp only at h
  cases hmk : mkdir_parents_exist_ok env st (od.getD cwd ++ "/" ++ pn) with
  | error e1 =>
    rw [hmk] at h
    cases h
    exact mkdir_err_not_helical hmk
  | ok st1 =>
    rw [hmk] at h
    dsimp only at h
    cases hpr : write_probe env st1 (od.getD cwd ++ "/" ++ pn) with
    | error e2 =>
      rw [hpr] at h
      cases h
      exact write_probe_err_not_helical hpr
    | ok st2 =>
      rw [hpr] at h
      exact Except.noConfusion h

theorem getHelicalConfigE_err_not_helical {form : String} {turns : Int} {e : PipeError}
    (h : getHelicalConfigE form turns = .error e) : e.isHelicalParameter = false := by
  unfold getHelicalConfigE at h
  split at h
  · exact Except.noConfusion h
  · cases h; rfl

theorem ply_stage_err_not_helical {g : String} {r : Except PlyExc PlyOut} {e : PipeError}
    (h : ply_stage g r = .error e) : e.isHelicalParameter = false := by
  unfold ply_stage at h
  repeat' (first | split at h | dsimp only at h)
  all_goals first | exact Except.noConfusion h | (cases h; rfl)

theorem ply_stage_error_ne_ok (g : String) (pe : PlyExc) (out : PlyOut) :
    ply_stage g (.error pe) ≠ .ok out := by
  intro h
  unfold ply_stage at h
  cases pe with
  | assertionFail m => simp at h
  | otherFail m =>
    dsimp only at h
    split at h <;> simp at h

theorem scaffold_stage_err_scaffold {fs : FS} {input : Option String} {pn : String}
    {n : Nat} {vec : List Nat} {e : PipeError}
    (h : scaffold_stage fs input pn n vec = .error e) : e.isScaffoldSequence = true := by
  unfold scaffold_stage scaffold_except_clause at h
  repeat' (first | split at h | dsimp only at h)
  all_goals first | exact Except.noConfusion h | (cases h; rfl)

theorem classify_cage_error_not_helical (e scaf_seq : String) (n : Nat)
    (hf pn : String) (t : Int) :
    (classify_cage_error e scaf_seq n hf pn t).isHelicalParameter = false := by
  unfold classify_cage_error
  repeat' (first | split | dsimp only)
  all_goals rfl

theorem cage_stage_err_not_helical {r : Except String String} {s : String} {n : Nat}
    {hf pn : String} {t : Int} {e : PipeError}
    (h : cage_stage r s n hf pn t = .error e) : e.isHelicalParameter = false := by
  unfold cage_stage at h
  split at h
  · exact Except.noConfusion h
  · cases h
    exact classify_cage_error_not_helical _ _ _ _ _ _

theorem cage_stage_error_eq (m s : String) (n : Nat) (hf pn : String) (t : Int) :
    cage_stage (.error m) s n hf pn t = .error (classify_cage_error m s n hf pn t) := rfl

/-- Any error produced by `design_core` when the turns gate passes is not a
`HelicalParameterError`. -/
theorem design_core_err_not_helical {fs : FS} {env : DirEnv} {st : DirState} {cwd : String}
    {pr : Except PlyExc PlyOut} {cr : Except String String}
    {pn gf form : String} {turns : Int} {scaf : Option String} {od : Option String}
    {e : PipeError} (hge : min_turns form ≤ turns)
    (h : design_core fs env st cwd pr cr pn gf form turns scaf od = .error e) :
    e.isHelicalParameter = false := by
  have hturns : check_helical_turns form turns = .ok () := by
    unfold check_helical_turns
    rw [if_neg (not_lt.mpr hge)]
  unfold design_core at h
  rw [hturns] at h
  cases hg : validate_geometry_file fs gf with
  | error eg =>
    rw [hg] at h
    cases h
    exact validate_geometry_file_err_not_helical hg
  | ok u =>
    cases u
    rw [hg] at h
    dsimp only at h
    cases hf : check_helical_form form with
    | error ef =>
      rw [hf] at h
      cases h
      exact check_helical_form_err_not_helical hf
    | ok u =>
      cases u
      rw [hf] at h
      dsimp only at h
      cases hs : validate_scaffold_sequence fs scaf pn with
      | error es =>
        rw [hs] at h
        cases h
        exact isScaffoldSequence_not_helical (validate_scaffold_sequence_err_scaffold hs)
      | ok u =>
        cases u
        rw [hs] at h
        dsimp only at h
        cases hd : validate_output_directory env st od cwd pn with
        | error ed =>
          rw [hd] at h
          cases h
          exact validate_output_directory_err_not_helical hd
        | ok pdst =>
          rw [hd] at h
          dsimp only at h
          cases hc : getHelicalConfigE form turns with
          | error ec =>
            rw [hc] at h
            cases h
            exact getHelicalConfigE_err_not_helical hc
          | ok cfg =>
            rw [hc] at h
            dsimp only at h
            cases hp : ply_stage gf pr with
            | error ep =>
              rw [hp] at h
              cases h
              exact ply_stage_err_not_helical hp
            | ok ply =>
              rw [hp] at h
              dsimp only at h
              by_cases hz : ply.edges.length = 0
              · rw [if_pos hz] at h
                cases h
                rfl
              · rw [if_neg hz] at h
                cases hsc : scaffold_stage fs scaf pn ply.edges.length ply.edge_length_vec with
                | error esc =>
                  rw [hsc] at h
                  cases h
                  exact isScaffoldSequence_not_helical (scaffold_stage_err_scaffold hsc)
                | ok sc =>
                  rw [hsc] at h
                  dsimp only at h
                  cases hcg : cage_stage cr sc.1 ply.edges.length form pn turns with
                  | error ecg =>
                    rw [hcg] at h
                    cases h
                    exact cage_stage_err_not_helical hcg
                  | ok ffn =>
                    rw [hcg] at h
                    exact Except.noConfusion h

theorem check_helical_form_ok {form : String} (hform : form ∈ valid_forms) :
    check_helical_form form = .ok () := by
  simp only [valid_forms, List.mem_cons, List.not_mem_nil, or_false] at hform
  rcases hform with h | h | h | h <;> subst h <;> rfl

theorem design_core_turns_lt {fs : FS} {env : DirEnv} {st : DirState} {cwd : String}
    {pr : Except PlyExc PlyOut} {cr : Except String String}
    {pn gf form : String} {turns : Int} {scaf od : Option String}
    (hok : check_helical_form form = .ok ())
    (hlt : turns < min_turns form)
    (hgeo : validate_geometry_file fs gf = .ok ()) :
    design_core fs env st cwd pr cr pn gf form turns scaf od =
      .error (.helicalParameter form turns (min_turns form)) := by
  have ht : check_helical_turns form turns =
      .error (.helicalParameter form turns (min_turns form)) := by
    unfold check_helical_turns
    rw [if_pos hlt]
  unfold design_core
  rw [hgeo, hok, ht]

/-- Inverting a successful `design_core` run into its stage outcomes. -/
theorem design_core_ok_inversion {fs : FS} {env : DirEnv} {st : DirState} {cwd : String}
    {pr : Except PlyExc PlyOut} {cr : Except String String}
    {pn gf form : String} {turns : Int} {scaf od : Option String} {res : DesignResult}
    (h : design_core fs env st cwd pr cr pn gf form turns scaf od = .ok res) :
    ∃ pd ply sc ffn,
      validate_output_directory env st od cwd pn = .ok pd ∧
      ply_stage gf pr = .ok ply ∧
      scaffold_stage fs scaf pn ply.edges.length ply.edge_length_vec = .ok sc ∧
      cage_stage cr sc.1 ply.edges.length form pn turns = .ok ffn ∧
      res = package pn pd.1 ffn := by
  unfold design_core at h
  repeat' (first | split at h | dsimp only at h)
  all_goals first
    | exact Except.noConfusion h
    | (cases h
       exact ⟨_, _, _, _, by assumption, by assumption, by assumption, by assumption, rfl⟩)

theorem design_core_cage_err_ne_ok {fs : FS} {env : DirEnv} {st : DirState} {cwd : String}
    {pr : Except PlyExc PlyOut} {m : String} {pn gf form : String} {turns : Int}
    {scaf od : Option String} {res : DesignResult} :
    design_core fs env st cwd pr (.error m) pn gf form turns scaf od ≠ .ok res := by
  intro h
  rcases design_core_ok_inversion h with ⟨pd, ply, sc, ffn, _, _, _, hcage, _⟩
  rw [cage_stage_error_eq] at hcage
  exact Except.noConfusion hcage

theorem design_core_ply_err_ne_ok {fs : FS} {env : DirEnv} {st : DirState} {cwd : String}
    {pe : PlyExc} {cr : Except String String} {pn gf form : String} {turns : Int}
    {scaf od : Option String} {res : DesignResult} :
    design_core fs env st cwd (.error pe) cr pn gf form turns scaf od ≠ .ok res := by
  intro h
  rcases design_core_ok_inversion h with ⟨pd, ply, sc, ffn, _, hply, _, _, _⟩
  exact ply_stage_error_ne_ok _ _ _ hply

/-! ### C2: the minimum-turns gate -/

/-- C2: for every helical form in the valid set and every integer turn count,
if the turn count is below the form's minimum (3 for Bform; 4 for Aform,
Hybrid, Twisted) then — whatever the scaffold input, output directory and
engine behaviour, i.e. before any helical configuration or engine work — the
pipeline fails with exactly `HelicalParameterError` (provided the geometry
file validates, the stage that runs first); and if the turn count is at or
above the minimum, no run of the pipeline ever produces a
`HelicalParameterError`. -/
theorem helical_turns_gate (form : String) (turns : Int) (hform : form ∈ valid_forms) :
    (turns < min_turns form →
      ∀ (fs : FS) (env : DirEnv) (st : DirState) (cwd : String) (oracle : EngineOracle)
        (project_name geometry_file : String) (scaffold_sequence output_dir : Option String)
        (single_crossovers print_output : Bool),
        validate_geometry_file fs geometry_file = .ok () →
        design_structure fs env st cwd oracle project_name geometry_file form turns
          scaffold_sequence output_dir single_crossovers print_output =
          .error (.helicalParameter form turns (min_turns form))) ∧
    (min_turns form ≤ turns →
      ∀ (fs : FS) (env : DirEnv) (st : DirState) (cwd : String) (oracle : EngineOracle)
        (project_name geometry_file : String) (scaffold_sequence output_dir : Option String)
        (single_crossovers print_output : Bool) (e : PipeError),
        design_structure fs env st cwd oracle project_name geometry_file form turns
          scaffold_sequence output_dir single_crossovers print_output = .error e →
        e.isHelicalParameter = false) := by
  constructor
  · intro hlt fs env st cwd oracle pn gf scaf od sx po hgeo
    unfold design_structure
    rw [design_core_turns_lt (check_helical_form_ok hform) hlt hgeo]
  · intro hge fs env st cwd oracle pn gf scaf od sx po e h
    unfold design_structure at h
    cases hcore : design_core fs env st cwd oracle.plyResult oracle.cageResult pn gf form
        turns scaf od with
    | error e0 =>
      rw [hcore] at h
      dsimp only at h
      cases h
      exact design_core_err_not_helical hge hcore
    | ok res =>
      rw [hcore] at h
      exact Except.noConfusion h

def plyOutW : PlyOut := ⟨[(0, 1)], [3], "fn", "sn"⟩

def fsW : FS := fun p => if p = "tet.ply" then some "ply format content" else none

/-- Witness for C2: with a valid geometry, 2 turns of Bform fail with
`HelicalParameterError` (minimum 3), while at 4 turns a failing engine run
surfaces a non-helical error. -/
theorem helical_turns_gate_witness :
    design_structure fsW env0 st0 "." ⟨.ok plyOutW, .ok "stem", .ok ()⟩ "p" "tet.ply" "Bform" 2
        none (some "/out") false true = .error (.helicalParameter "Bform" 2 3) ∧
    (PipeError.designConstraint "Scaffold routing failed" "Edges: 1, Form: Bform"
        "Cannot find valid scaffold path through geometry: no routing").isHelicalParameter
      = false :=
  ⟨(helical_turns_gate "Bform" 2 (by decide)).1 (by decide) fsW env0 st0 "."
      ⟨.ok plyOutW, .ok "stem", .ok ()⟩ "p" "tet.ply" none (some "/out") false true rfl,
    (helical_turns_gate "Bform" 4 (by decide)).2 (by decide) fsW env0 st0 "."
      ⟨.ok plyOutW, .error "no routing", .ok ()⟩ "p" "tet.ply" none (some "/out") false true
      _ rfl⟩

/-! ### C4: atomic-model (PDB) failure is non-fatal and uniquely so -/

/-- C4: an error in the `pdbgen` stage never propagates out of
`design_structure`: the same successful `DesignResult` is returned, with the
failure reported only through the printed warnings; by contrast a failing
cage-design call or geometry-conversion call never yields a successful
result, making the atomic-model stage the only one whose exception is
swallowed. -/
theorem pdb_failure_nonfatal (fs : FS) (env : DirEnv) (st : DirState) (cwd : String)
    (pr : Except PlyExc PlyOut) (cr : Except String String)
    (pn gf form : String) (turns : Int) (scaf od : Option String) (sx po : Bool) :
    (∀ res w, design_structure fs env st cwd ⟨pr, cr, .ok ()⟩ pn gf form turns scaf od sx po
        = .ok (res, w) →
      ∀ epdb, design_structure fs env st cwd ⟨pr, cr, .error epdb⟩ pn gf form turns scaf od sx po
        = .ok (res, pdb_warnings (.error epdb) po)) ∧
    (∀ m pdbr out, cr = .error m →
      design_structure fs env st cwd ⟨pr, cr, pdbr⟩ pn gf form turns scaf od sx po ≠ .ok out) ∧
    (∀ pe pdbr out, pr = .error pe →
      design_structure fs env st cwd ⟨pr, cr, pdbr⟩ pn gf form turns scaf od sx po ≠ .ok out) := by
  refine ⟨?_, ?_, ?_⟩
  · intro res w h epdb
    unfold design_structure at h ⊢
    dsimp only at h ⊢
    revert h
    cases hcore : design_core fs env st cwd pr cr pn gf form turns scaf od with
    | error e0 =>
      intro h
      exact Except.noConfusion h
    | ok res0 =>
      intro h
      dsimp only at h ⊢
      rw [Except.ok.injEq, Prod.mk.injEq] at h
      obtain ⟨hres, hw⟩ := h
      subst hres
      rfl
  · rintro m pdbr out rfl h
    unfold design_structure at h
    dsimp only at h
    cases hcore : design_core fs env st cwd pr (.error m) pn gf form turns scaf od with
    | error e0 =>
      rw [hcore] at h
      exact Except.noConfusion h
    | ok res0 => exact design_core_cage_err_ne_ok hcore
  · rintro pe pdbr out rfl h
    unfold design_structure at h
    dsimp only at h
    cases hcore : design_core fs env st cwd (.error pe) cr pn gf form turns scaf od with
    | error e0 =>
      rw [hcore] at h
      exact Except.noConfusion h
    | ok res0 => exact design_core_ply_err_ne_ok hcore

/-- Witness for C4: a concrete successful run, re-run with a failing `pdbgen`,
still returns the same `DesignResult` plus the two warning lines. -/
theorem pdb_failure_nonfatal_witness :
    design_structure fsW env0 st0 "." ⟨.ok plyOutW, .ok "stem", .error "pdb boom"⟩ "p" "tet.ply"
        "Bform" 4 none (some "/out") false true =
      .ok (package "p" "/out/p" "stem",
        ["Warning: PDB file generation failed: pdb boom",
          "Other output files (CSV, CanDo) were generated successfully."]) :=
  (pdb_failure_nonfatal fsW env0 st0 "." (.ok plyOutW) (.ok "stem") "p" "tet.ply" "Bform" 4
      none (some "/out") false true).1 (package "p" "/out/p" "stem") [] rfl "pdb boom"

/-! ### C6 and C7: scaffold validation and resolution -/

/-- An empty invalid-characters report means every character of the
(uppercased) sequence is a nucleotide. -/
theorem all_valid_of_invalid_empty {u : String}
    (h : (invalidCharsSorted u).isEmpty = true) : ∀ x ∈ u.data, x ∈ validBases := by
  intro x hx
  by_contra hxb
  have hmem : x ∈ invalidCharsSorted u := by
    unfold invalidCharsSorted
    rw [List.mem_insertionSort, List.mem_filter]
    exact ⟨List.mem_dedup.mpr hx, by simpa using hxb⟩
  rw [List.isEmpty_iff] at h
  rw [h] at hmem
  simp at hmem

def fsConfusable : FS := fun p => if p = "ACGT" then some "xyz" else none

/-- C6 counterexample: the scaffold input "ACGT" has no path separator and no
extension, so validation classifies it as an inline sequence and accepts it
(all four characters are nucleotides); but resolution finds an existing file
of that name and reads it instead, yielding the sequence "XYZ", whose
characters are outside the nucleotide alphabet — the invariant fails. -/
theorem resolved_scaffold_invariant_counterexample :
    validate_scaffold_sequence fsConfusable (some "ACGT") "p" = .ok () ∧
    (process_scaffold_sequence fsConfusable (some "ACGT") "p").1 = "XYZ" ∧
    'X' ∈ ((process_scaffold_sequence fsConfusable (some "ACGT") "p").1).data ∧
    'X' ∉ validBases :=
  ⟨by rfl, by rfl, by decide, by decide⟩

/-- C6 (amended): for every scaffold input that passes validation and is not
an inline-classified string (no separator, no extension) naming an existing
file, the resolved sequence contains only characters of the nucleotide
alphabet after uppercasing. -/
theorem resolved_scaffold_invariant (fs : FS) (input : Option String) (project_name : String)
    (hok : validate_scaffold_sequence fs input project_name = .ok ())
    (hnoclash : ∀ s, input = some s → looksLikeFilePath s = false → fs s = none) :
    ∀ c ∈ (process_scaffold_sequence fs input project_name).1.data, c ∈ validBases := by
  intro c hc
  cases input with
  | none => simp [process_scaffold_sequence] at hc
  | some s =>
    by_cases hdef : s = "M13.txt"
    · subst hdef
      simp [process_scaffold_sequence] at hc
    · unfold process_scaffold_sequence at hc
      dsimp only at hc
      rw [if_neg hdef] at hc
      unfold validate_scaffold_sequence at hok
      dsimp only at hok
      rw [if_neg hdef] at hok
      by_cases hfl : looksLikeFilePath s = true
      · -- file-reference branch
        rw [if_pos hfl] at hok
        cases hfs : fs s with
        | none =>
          rw [hfs] at hok
          exact Except.noConfusion hok
        | some contents =>
          rw [hfs] at hok hc
          try dsimp only at hok hc
          by_cases hemp : pyStrip contents = ""
          · rw [if_pos hemp] at hok
            exact Except.noConfusion hok
          · rw [if_neg hemp] at hok
            try dsimp only at hok
            by_cases hinv : (invalidCharsSorted (pyUpper (pyStrip contents))).isEmpty = true
            · have hvalid := all_valid_of_invalid_empty hinv
              -- hc gives c = toUpper c0 for c0 in a stripped line of the contents
              rw [show (pyUpper (String.mk
                  (((splitOnNl contents.data).map stripChars).flatten))).data
                  = (((splitOnNl contents.data).map stripChars).flatten).map Char.toUpper
                  from rfl] at hc
              obtain ⟨c0, hc0, hcup⟩ := List.mem_map.mp hc
              obtain ⟨lpiece, hlmem, hc0l⟩ := List.mem_flatten.mp hc0
              obtain ⟨line, hline, hlstr⟩ := List.mem_map.mp hlmem
              subst hlstr
              have hc0contents : c0 ∈ stripChars contents.data :=
                mem_strip_line hline hc0l
              have : Char.toUpper c0 ∈ (pyUpper (pyStrip contents)).data := by
                rw [show (pyUpper (pyStrip contents)).data
                    = (stripChars contents.data).map Char.toUpper from rfl]
                exact List.mem_map_of_mem _ hc0contents
              rw [← hcup]
              exact hvalid _ this
            · rw [if_neg hinv] at hok
              exact Except.noConfusion hok
      · -- inline branch
        have hfsnone := hnoclash s rfl (by simpa using hfl)
        rw [hfsnone] at hc
        rw [if_neg hfl] at hok
        try dsimp only at hok
        by_cases hinv : (invalidCharsSorted (pyUpper s)).isEmpty = true
        · exact all_valid_of_invalid_empty hinv c hc
        · rw [if_neg hinv] at hok
          exact Except.noConfusion hok

def fsSeqFile : FS := fun p => if p = "seq.txt" then some "ACGU" else none

/-- Witness for C6 (amended) at a file-referenced scaffold resolving to
"ACGU", instantiated at its first character. -/
theorem resolved_scaffold_invariant_witness : ('A' : Char) ∈ validBases :=
  resolved_scaffold_invariant fsSeqFile (some "seq.txt") "p" (by rfl)
    (by
      intro s hs hf
      cases hs
      exact absurd hf (by decide))
    'A' (by decide)

def fsEmpty : FS := fun _ => none

/-- C7 counterexample: for the inline scaffold string "x", validation raises
`ScaffoldSequenceError` whose sequence-info field (folded into the primary
message) lists `X`, but the technical-detail field only reports the allowed
alphabet and the sequence length — `X` does not appear in it, contrary to
the claim's placement. -/
theorem inline_invalid_char_counterexample :
    validate_scaffold_sequence fsEmpty (some "x") "p" =
      .error (.scaffoldSequence "Invalid characters in scaffold sequence string"
        "Found: X" "Only A, T, G, C, U are allowed. Sequence length: 1") ∧
    'X' ∈ ("Found: X" : String).data ∧
    'X' ∉ ("Only A, T, G, C, U are allowed. Sequence length: 1" : String).data :=
  ⟨by rfl, by decide, by decide⟩

/-- C7 (amended): an inline-classified scaffold string containing a character
whose uppercase form is outside the nucleotide alphabet always fails
validation with `ScaffoldSequenceError`; the offending characters are listed
sorted and uppercased in the error's sequence-info field (the technical
detail reports the allowed alphabet and the sequence length). -/
theorem inline_invalid_chars_reported (fs : FS) (s project_name : String)
    (hinline : looksLikeFilePath s = false)
    (hbad : ∃ c ∈ s.data, Char.toUpper c ∉ validBases) :
    ∃ listed : List Char,
      validate_scaffold_sequence fs (some s) project_name =
        .error (.scaffoldSequence "Invalid characters in scaffold sequence string"
          ("Found: " ++ joinCommaSp listed)
          ("Only A, T, G, C, U are allowed. Sequence length: " ++ toString s.length)) ∧
      List.Sorted (· ≤ ·) listed ∧
      (∀ c ∈ s.data, Char.toUpper c ∉ validBases → Char.toUpper c ∈ listed) ∧
      (∀ x ∈ listed, (∃ c ∈ s.data, x = Char.toUpper c) ∧ x ∉ validBases) := by
  have hmemgen : ∀ c ∈ s.data, Char.toUpper c ∉ validBases →
      Char.toUpper c ∈ invalidCharsSorted (pyUpper s) := by
    intro c hc hcb
    unfold invalidCharsSorted
    rw [List.mem_insertionSort, List.mem_filter]
    refine ⟨List.mem_dedup.mpr ?_, by simpa using hcb⟩
    rw [show (pyUpper s).data = s.data.map Char.toUpper from rfl]
    exact List.mem_map_of_mem _ hc
  refine ⟨invalidCharsSorted (pyUpper s), ?_, ?_, hmemgen, ?_⟩
  · have hm13 : s ≠ "M13.txt" := by
      intro hs
      rw [hs] at hinline
      exact absurd hinline (by decide)
    unfold validate_scaffold_sequence
    dsimp only
    rw [if_neg hm13, if_neg (by simp [hinline] : ¬ looksLikeFilePath s = true)]
    try dsimp only
    rw [if_neg ?notempty]
    case notempty =>
      obtain ⟨c, hc, hcb⟩ := hbad
      intro hemp
      rw [List.isEmpty_iff] at hemp
      have := hmemgen c hc hcb
      rw [hemp] at this
      simp at this
    have hlen : (pyUpper s).length = s.length := by
      show (s.data.map Char.toUpper).length = s.length
      rw [List.length_map]
      rfl
    rw [hlen]
  · exact List.sorted_insertionSort _ _
  · intro x hx
    unfold invalidCharsSorted at hx
    rw [List.mem_insertionSort, List.mem_filter] at hx
    obtain ⟨hxd, hxb⟩ := hx
    rw [List.mem_dedup] at hxd
    rw [show (pyUpper s).data = s.data.map Char.toUpper from rfl] at hxd
    obtain ⟨c, hc, hcx⟩ := List.mem_map.mp hxd
    exact ⟨⟨c, hc, hcx.symm⟩, by simpa using hxb⟩

/-- Witness for C7 (amended) at the inline string "x". -/
theorem inline_invalid_chars_reported_witness :
    ∃ listed : List Char,
      validate_scaffold_sequence fsEmpty (some "x") "p" =
        .error (.scaffoldSequence "Invalid characters in scaffold sequence string"
          ("Found: " ++ joinCommaSp listed)
          ("Only A, T, G, C, U are allowed. Sequence length: " ++ toString ("x" : String).length)) ∧
      List.Sorted (· ≤ ·) listed ∧
      (∀ c ∈ ("x" : String).data, Char.toUpper c ∉ validBases → Char.toUpper c ∈ listed) ∧
      (∀ x ∈ listed, (∃ c ∈ ("x" : String).data, x = Char.toUpper c) ∧ x ∉ validBases) :=
  inline_invalid_chars_reported fsEmpty "x" "p" (by decide) ⟨'x', by decide, by decide⟩

end PyDaedalus
